import Mathlib

/-!
Verification of the gesture/voice fusion-dispatch core of the
hand-gesture-voice-control system.

The development shallowly embeds the Python modules:
* `modules/system_controller.py` — cooldown gate (`can_execute_action`) and the
  two dispatcher entry points (`execute_gesture_command`, `execute_voice_command`);
* `modules/gesture_recognition.py` — classifier adapter (`classify_gesture`) and
  the smoothing buffer (`smooth_gesture`);
* `modules/voice_commands.py` — phrase-to-token resolution (`process_command`).

Python floats from `time.time()` and classifier confidences are modelled as
rationals; Python dicts keyed by strings are modelled as association lists in
insertion order; a callable that may raise is modelled as a function into
`Except`.
-/

namespace GestureVoice

/-- Python dict read `d.get(k)` / membership test `k in d` on an association
list kept in insertion order. -/
def dictGet {κ α : Type} [DecidableEq κ] : List (κ × α) → κ → Option α
  | [], _ => none
  | (k, v) :: rest, key => if k = key then some v else dictGet rest key

/-- Python dict write `d[k] = v`: replaces the existing binding when the key is
present, otherwise appends a new binding at the end. -/
def setKey {κ α : Type} [DecidableEq κ] : List (κ × α) → κ → α → List (κ × α)
  | [], key, v => [(key, v)]
  | (k, w) :: rest, key, v =>
      if k = key then (key, v) :: rest else (k, w) :: setKey rest key v

theorem dictGet_setKey_self {κ α : Type} [DecidableEq κ]
    (m : List (κ × α)) (k : κ) (v : α) : dictGet (setKey m k v) k = some v := by
  induction m with
  | nil => simp [setKey, dictGet]
  | cons p rest ih =>
      obtain ⟨k', w⟩ := p
      by_cases h : k' = k
      · simp [setKey, h, dictGet]
      · simp [setKey, h, dictGet, ih]

theorem dictGet_mem_values {κ α : Type} [DecidableEq κ]
    (m : List (κ × α)) (k : κ) (v : α) (h : dictGet m k = some v) :
    v ∈ m.map Prod.snd := by
  induction m with
  | nil => simp [dictGet] at h
  | cons p rest ih =>
      obtain ⟨k', w⟩ := p
      by_cases hk : k' = k
      · simp [dictGet, hk] at h
        simp [h]
      · simp [dictGet, hk] at h
        simpa using Or.inr (ih h)

/-! ## Cooldown gate (`SystemController.can_execute_action`)

State is `self.last_action_time`, a dict from action-name string to the time at
which it last executed; `cooldown` is `self.action_cooldown` (1.0 in the code).
The embedding passes the state explicitly and returns the updated state
together with the boolean decision. -/

/-- `SystemController.action_cooldown` (settings `ACTION_COOLDOWN`). -/
def ACTION_COOLDOWN : ℚ := 1

/-- `SystemController.can_execute_action`: if the action has a recorded last
time and `now - last < cooldown` return `False` without touching the dict;
otherwise record `now` for the action and return `True`. -/
def can_execute_action (cooldown : ℚ) (m : List (String × ℚ)) (now : ℚ)
    (action_name : String) : Bool × List (String × ℚ) :=
  match dictGet m action_name with
  | some last =>
      if now - last < cooldown then (false, m)
      else (true, setKey m action_name now)
  | none => (true, setKey m action_name now)

theorem can_execute_action_true_eq (cooldown : ℚ) (m : List (String × ℚ))
    (now : ℚ) (name : String)
    (h : (can_execute_action cooldown m now name).1 = true) :
    can_execute_action cooldown m now name = (true, setKey m name now) := by
  unfold can_execute_action at h ⊢
  cases hd : dictGet m name with
  | none => rfl
  | some last =>
      simp only [hd] at h ⊢
      by_cases hc : now - last < cooldown
      · simp [hc] at h
      · simp [hc]

theorem can_execute_action_reject (cooldown : ℚ) (m : List (String × ℚ))
    (now : ℚ) (name : String) (last : ℚ)
    (hd : dictGet m name = some last) (hc : now - last < cooldown) :
    can_execute_action cooldown m now name = (false, m) := by
  unfold can_execute_action
  simp [hd, hc]

/-- C2: the admit operation returns `true` and records `now` as the token's
last-execution timestamp when the token has no recorded timestamp or when
`now - last ≥ cooldown`; it returns `false` with the cooldown state completely
unchanged when `now - last < cooldown`. -/
theorem can_execute_action_spec (cooldown : ℚ) (m : List (String × ℚ))
    (now : ℚ) (name : String) :
    (dictGet m name = none →
      can_execute_action cooldown m now name = (true, setKey m name now)) ∧
    (∀ last, dictGet m name = some last →
      (now - last < cooldown →
        can_execute_action cooldown m now name = (false, m)) ∧
      (cooldown ≤ now - last →
        can_execute_action cooldown m now name = (true, setKey m name now))) ∧
    dictGet (setKey m name now) name = some now := by
  refine ⟨?_, ?_, dictGet_setKey_self m name now⟩
  · intro h
    unfold can_execute_action
    simp [h]
  · intro last hd
    refine ⟨fun hc => can_execute_action_reject cooldown m now name last hd hc, ?_⟩
    intro hc
    unfold can_execute_action
    simp [hd, not_lt.mpr hc]

/-- Witness for C2 on concrete inputs: a first admit on a fresh token is
accepted and records the time; a second admit half a time unit later is
rejected without changing the state. -/
theorem can_execute_action_spec_witness :
    can_execute_action 1 [] 0 "volume_up" = (true, [("volume_up", 0)]) ∧
    can_execute_action 1 [("volume_up", 0)] (1/2) "volume_up"
      = (false, [("volume_up", 0)]) := by
  refine ⟨(can_execute_action_spec 1 [] 0 "volume_up").1 rfl, ?_⟩
  exact (((can_execute_action_spec 1 [("volume_up", 0)] (1/2) "volume_up").2.1
    0 rfl).1 (by norm_num))

/-! ## Smoothing buffer (`GestureRecognizer.smooth_gesture`) -/

/-- `GESTURE_SMOOTHING` from `config/settings.py`. -/
def GESTURE_SMOOTHING : Nat := 5

/-- The buffer update inside `smooth_gesture`: append the label, then
`pop(0)` once the length exceeds the buffer size. -/
def pushBuffer (size : Nat) (buf : List String) (g : String) : List String :=
  let b := buf ++ [g]
  if size < b.length then b.tail else b

theorem pushBuffer_length_le (size : Nat) (buf : List String) (g : String)
    (h : buf.length ≤ size) : (pushBuffer size buf g).length ≤ size := by
  simp only [pushBuffer]
  split
  · rename_i hc
    simp only [List.length_tail, List.length_append, List.length_singleton] at hc ⊢
    omega
  · rename_i hc
    simp only [List.length_append, List.length_singleton] at hc ⊢
    omega

theorem foldl_pushBuffer_length_le (size : Nat) (labels : List String) :
    ∀ buf : List String, buf.length ≤ size →
      (labels.foldl (pushBuffer size) buf).length ≤ size := by
  induction labels with
  | nil => intro buf h; simpa using h
  | cons g rest ih =>
      intro buf h
      simpa using ih (pushBuffer size buf g) (pushBuffer_length_le size buf g h)

/-- C9: starting from the empty buffer, after any sequence of pushes the
smoothing window holds at most `GESTURE_SMOOTHING` (= 5) labels: each push
appends the new label and `pop(0)` evicts the oldest entry once the size
exceeds the bound. -/
theorem smoothing_buffer_length_le (labels : List String) :
    (labels.foldl (pushBuffer GESTURE_SMOOTHING) []).length ≤ GESTURE_SMOOTHING :=
  foldl_pushBuffer_length_le GESTURE_SMOOTHING labels [] (by simp)

/-! ## Dispatcher (`SystemController.execute_gesture_command` /
`execute_voice_command`)

`gesture_actions` and `voice_actions` are the two dicts built in
`SystemController.__init__`; their values are the names of the bound action
methods (the Action Executor side effects).  The executor itself is modelled
as an oracle `String → Bool` telling whether invoking a given method succeeds
(`false` = it raises); the dispatcher catches the exception, so neither the
returned cooldown state nor the invocation log depends on the outcome.
Each dispatcher call returns the updated cooldown map together with the list
of executor methods it invoked. -/

/-- `self.gesture_actions`: gesture label → bound method, in insertion order. -/
def gesture_actions : List (String × String) :=
  [("fist", "close_application"), ("palm", "stop_action"),
   ("thumbs_up", "volume_up"), ("peace", "take_screenshot"),
   ("ok", "confirm_action"), ("point", "mouse_click")]

/-- `self.voice_actions`: voice command token → bound method, in insertion
order. -/
def voice_actions : List (String × String) :=
  [("open_browser", "open_browser"), ("close_browser", "close_browser"),
   ("volume_up", "volume_up"), ("volume_down", "volume_down"),
   ("mute_audio", "mute_audio"), ("unmute_audio", "unmute_audio"),
   ("screenshot", "take_screenshot"), ("open_calculator", "open_calculator"),
   ("open_notepad", "open_notepad"), ("minimize_window", "minimize_window"),
   ("maximize_window", "maximize_window"), ("alt_tab", "switch_window"),
   ("scroll_up", "scroll_up"), ("scroll_down", "scroll_down"),
   ("zoom_in", "zoom_in"), ("zoom_out", "zoom_out"),
   ("greeting", "greeting"), ("goodbye", "goodbye")]

/-- Common body of the two dispatcher entry points: membership test in the
action table, then the cooldown check keyed by the looked-up string, then the
invocation with the exception caught (so the state is the same whether or not
the executor raises). -/
def dispatchWith (table : List (String × String)) (executor : String → Bool)
    (cooldown : ℚ) (m : List (String × ℚ)) (now : ℚ) (key : String) :
    List (String × ℚ) × List String :=
  match dictGet table key with
  | none => (m, [])
  | some method =>
      match can_execute_action cooldown m now key with
      | (false, m') => (m', [])
      | (true, m') =>
          let _ : Bool := executor method
          (m', [method])

/-- `SystemController.execute_gesture_command`: keyed by the gesture label
`gesture_result["gesture"]`. -/
def execute_gesture_command (executor : String → Bool) (cooldown : ℚ)
    (m : List (String × ℚ)) (now : ℚ) (gesture : String) :
    List (String × ℚ) × List String :=
  dispatchWith gesture_actions executor cooldown m now gesture

/-- `SystemController.execute_voice_command`: keyed by the voice command
token. -/
def execute_voice_command (executor : String → Bool) (cooldown : ℚ)
    (m : List (String × ℚ)) (now : ℚ) (command : String) :
    List (String × ℚ) × List String :=
  dispatchWith voice_actions executor cooldown m now command

/-- Counterexample to C1: the thumbs-up gesture and the voice token
`"volume_up"` both invoke the `volume_up` executor method, yet dispatching
the gesture at time 0 and the voice command at time 1/2 — inside one
cooldown window of length 1 — invokes the executor twice, not once, because
the gesture path keys the cooldown by the label `"thumbs_up"` while the
voice path keys it by `"volume_up"`. -/
theorem cooldown_key_mismatch_cex :
    ((1 : ℚ)/2 - 0 < ACTION_COOLDOWN) ∧
    dictGet gesture_actions "thumbs_up" = some "volume_up" ∧
    dictGet voice_actions "volume_up" = some "volume_up" ∧
    ((execute_gesture_command (fun _ => true) ACTION_COOLDOWN [] 0 "thumbs_up").2 ++
     (execute_voice_command (fun _ => true) ACTION_COOLDOWN
        (execute_gesture_command (fun _ => true) ACTION_COOLDOWN [] 0 "thumbs_up").1
        (1/2) "volume_up").2
      = ["volume_up", "volume_up"]) := by
  refine ⟨by norm_num [ACTION_COOLDOWN], rfl, rfl, rfl⟩

/-- C1 (amended): cooldown state is keyed by the string handed to
`can_execute_action` — the source-side gesture label on the gesture path and
the action token on the voice path.  These key sets are disjoint, so a
gesture event and a voice event resolving to the same executor method (e.g.
`thumbs_up` and `"volume_up"`, both invoking `volume_up`) never share
cooldown state: dispatched at any two times, in either order, they produce
two executor invocations. -/
theorem cooldown_keys_source_side (executor executor' : String → Bool)
    (t1 t2 : ℚ) :
    ((execute_gesture_command executor ACTION_COOLDOWN [] t1 "thumbs_up").2 ++
     (execute_voice_command executor' ACTION_COOLDOWN
        (execute_gesture_command executor ACTION_COOLDOWN [] t1 "thumbs_up").1
        t2 "volume_up").2
      = ["volume_up", "volume_up"]) ∧
    ((execute_voice_command executor' ACTION_COOLDOWN [] t2 "volume_up").2 ++
     (execute_gesture_command executor ACTION_COOLDOWN
        (execute_voice_command executor' ACTION_COOLDOWN [] t2 "volume_up").1
        t1 "thumbs_up").2
      = ["volume_up", "volume_up"]) :=
  ⟨rfl, rfl⟩

/-- C10: when an admitted dispatch's executor call raises (`executor method =
false`), the token's recorded timestamp keeps the admit-time value, the
(failed) invocation did happen, and any subsequent dispatch of the same token
within one cooldown window of the failed attempt is rejected: it invokes
nothing and leaves the state unchanged.  Stated for the voice entry point and
the gesture entry point. -/
theorem failed_executor_keeps_cooldown :
    (∀ (executor executor' : String → Bool) (cooldown : ℚ)
       (m : List (String × ℚ)) (now now' : ℚ) (command method : String),
      dictGet voice_actions command = some method →
      (can_execute_action cooldown m now command).1 = true →
      executor method = false →
      now' - now < cooldown →
      dictGet (execute_voice_command executor cooldown m now command).1 command
          = some now ∧
      (execute_voice_command executor cooldown m now command).2 = [method] ∧
      execute_voice_command executor' cooldown
          (execute_voice_command executor cooldown m now command).1 now' command
        = ((execute_voice_command executor cooldown m now command).1, [])) ∧
    (∀ (executor executor' : String → Bool) (cooldown : ℚ)
       (m : List (String × ℚ)) (now now' : ℚ) (gesture method : String),
      dictGet gesture_actions gesture = some method →
      (can_execute_action cooldown m now gesture).1 = true →
      executor method = false →
      now' - now < cooldown →
      dictGet (execute_gesture_command executor cooldown m now gesture).1 gesture
          = some now ∧
      (execute_gesture_command executor cooldown m now gesture).2 = [method] ∧
      execute_gesture_command executor' cooldown
          (execute_gesture_command executor cooldown m now gesture).1 now' gesture
        = ((execute_gesture_command executor cooldown m now gesture).1, [])) := by
  constructor
  · intro executor executor' cooldown m now now' command method htab hadm _hfail hwin
    have hce := can_execute_action_true_eq cooldown m now command hadm
    have hrun : execute_voice_command executor cooldown m now command
        = (setKey m command now, [method]) := by
      simp [execute_voice_command, dispatchWith, htab, hce]
    have hget : dictGet (setKey m command now) command = some now :=
      dictGet_setKey_self m command now
    refine ⟨by simp [hrun, hget], by simp [hrun], ?_⟩
    have hrej : can_execute_action cooldown (setKey m command now) now' command
        = (false, setKey m command now) :=
      can_execute_action_reject cooldown _ now' command now hget hwin
    rw [hrun]
    simp [execute_voice_command, dispatchWith, htab, hrej]
  · intro executor executor' cooldown m now now' gesture method htab hadm _hfail hwin
    have hce := can_execute_action_true_eq cooldown m now gesture hadm
    have hrun : execute_gesture_command executor cooldown m now gesture
        = (setKey m gesture now, [method]) := by
      simp [execute_gesture_command, dispatchWith, htab, hce]
    have hget : dictGet (setKey m gesture now) gesture = some now :=
      dictGet_setKey_self m gesture now
    refine ⟨by simp [hrun, hget], by simp [hrun], ?_⟩
    have hrej : can_execute_action cooldown (setKey m gesture now) now' gesture
        = (false, setKey m gesture now) :=
      can_execute_action_reject cooldown _ now' gesture now hget hwin
    rw [hrun]
    simp [execute_gesture_command, dispatchWith, htab, hrej]

/-- Witness for C10 on concrete inputs: the voice token `"volume_up"` is
dispatched at time 0 with an executor that always raises; the timestamp is
recorded anyway, and a retry at time 1/2 is rejected outright. -/
theorem failed_executor_keeps_cooldown_witness :
    dictGet (execute_voice_command (fun _ => false) 1 [] 0 "volume_up").1
        "volume_up" = some 0 ∧
    (execute_voice_command (fun _ => false) 1 [] 0 "volume_up").2
        = ["volume_up"] ∧
    execute_voice_command (fun _ => false) 1
        (execute_voice_command (fun _ => false) 1 [] 0 "volume_up").1
        (1/2) "volume_up"
      = ((execute_voice_command (fun _ => false) 1 [] 0 "volume_up").1, []) :=
  failed_executor_keeps_cooldown.1 (fun _ => false) (fun _ => false) 1 [] 0 (1/2)
    "volume_up" "volume_up" rfl rfl rfl (by norm_num)

/-! ## Interleaved execution of `can_execute_action`

`main.py` runs `gesture_loop` and `voice_loop` on two threads; both call
`SystemController.can_execute_action` on the shared `last_action_time` dict
with no lock.  The body of `can_execute_action` is two separately executed
statements on the shared dict: the membership/recency check, and the
timestamp write.  The model below makes each of those one atomic step and
lets a scheduler interleave the two threads. -/

/-- Position of one thread inside `can_execute_action`: about to run the
check, past the check and about to write, or returned with a decision. -/
inductive AdmitPC : Type where
  | checkStep : AdmitPC
  | writeStep : AdmitPC
  | finished : Bool → AdmitPC
deriving DecidableEq

/-- One producer-loop thread executing `can_execute_action token` at its own
current time. -/
structure AdmitThread : Type where
  pc : AdmitPC
  token : String
  now : ℚ

/-- One atomic step of a thread against the shared dict: the check statement
either rejects (done, `false`) or falls through to the write; the write
statement records the timestamp and returns `true`. -/
def admitStep (cooldown : ℚ) (m : List (String × ℚ)) (t : AdmitThread) :
    List (String × ℚ) × AdmitThread :=
  match t.pc with
  | .checkStep =>
      match dictGet m t.token with
      | some last =>
          if t.now - last < cooldown then (m, { t with pc := .finished false })
          else (m, { t with pc := .writeStep })
      | none => (m, { t with pc := .writeStep })
  | .writeStep => (setKey m t.token t.now, { t with pc := .finished true })
  | .finished _ => (m, t)

/-- Shared dict plus the two producer threads (gesture loop and voice loop). -/
structure RaceState : Type where
  mem : List (String × ℚ)
  gestureThread : AdmitThread
  voiceThread : AdmitThread

/-- Run one scheduler decision: `true` steps the voice thread, `false` the
gesture thread. -/
def schedStep (cooldown : ℚ) (s : RaceState) (pickVoice : Bool) : RaceState :=
  if pickVoice then
    let r := admitStep cooldown s.mem s.voiceThread
    { s with mem := r.1, voiceThread := r.2 }
  else
    let r := admitStep cooldown s.mem s.gestureThread
    { s with mem := r.1, gestureThread := r.2 }

/-- Run a whole schedule. -/
def runSched (cooldown : ℚ) (sched : List Bool) (s : RaceState) : RaceState :=
  sched.foldl (schedStep cooldown) s

/-- Counterexample to C3: with the check and the write as separate unlocked
steps, the schedule check-G, check-V, write-G, write-V makes both loops'
admit calls for the token `"volume_up"` — issued within half a time unit of
each other, inside one cooldown window of length 1 — return `true`: two
admissions of one token inside one cooldown interval, counted across both
sources. -/
theorem admit_race_cex :
    ((1 : ℚ)/2 - 0 < ACTION_COOLDOWN) ∧
    (let s := runSched ACTION_COOLDOWN [false, true, false, true]
       ⟨[], ⟨.checkStep, "volume_up", 0⟩, ⟨.checkStep, "volume_up", 1/2⟩⟩
     s.gestureThread.pc = .finished true ∧ s.voiceThread.pc = .finished true) :=
  ⟨by norm_num [ACTION_COOLDOWN], rfl, rfl⟩

/-- C3 (amended): the admit check-and-set is not a single atomic unit — the
code takes no lock, so the read and the write of the shared cooldown dict
interleave between the two producer loops.  For every token, cooldown and
pair of call times there is a schedule (check-G, check-V, write-G, write-V,
from the empty state) under which both loops' admit calls for that token
return `true`, so two executions of the same action can slip through inside
one cooldown window. -/
theorem admit_check_set_not_atomic (cooldown t1 t2 : ℚ) (token : String) :
    (let s := runSched cooldown [false, true, false, true]
       ⟨[], ⟨.checkStep, token, t1⟩, ⟨.checkStep, token, t2⟩⟩
     s.gestureThread.pc = .finished true ∧ s.voiceThread.pc = .finished true) :=
  ⟨rfl, rfl⟩

/-! ## Classifier adapter (`GestureRecognizer.classify_gesture`)

The underlying sklearn classifier is an external collaborator; it is modelled
as an oracle `List ℚ → Except Unit (Nat × ℚ)` producing the predicted class
index together with `max(predict_proba(...))`, or an error when the
`predict`/`predict_proba` call raises.  `self.classifier` may be `None`
(`Option`).  The whole `try` body is covered by the bare `except:`, so any
oracle error collapses to `("none", 0.0)`. -/

/-- `GESTURE_THRESHOLD` from `config/settings.py`. -/
def GESTURE_THRESHOLD : ℚ := 8/10

/-- `self.gesture_labels` from `GestureRecognizer.__init__`. -/
def gesture_labels : List (Nat × String) :=
  [(0, "fist"), (1, "palm"), (2, "thumbs_up"),
   (3, "peace"), (4, "ok"), (5, "point")]

/-- `GestureRecognizer.classify_gesture`: `("none", 0.0)` when the classifier
is `None` or its invocation raises; otherwise the predicted label — via
`gesture_labels.get(prediction, "unknown")` — with its confidence when the
confidence is strictly above the threshold, and `("none", confidence)`
otherwise. -/
def classify_gesture (classifier : Option (List ℚ → Except Unit (Nat × ℚ)))
    (landmarks : List ℚ) : String × ℚ :=
  match classifier with
  | none => ("none", 0)
  | some predictor =>
      match predictor landmarks with
      | .error _ => ("none", 0)
      | .ok (prediction, confidence) =>
          if GESTURE_THRESHOLD < confidence then
            ((dictGet gesture_labels prediction).getD "unknown", confidence)
          else ("none", confidence)

/-- C5: `classify_gesture` returns `("none", 0.0)` when the classifier is
unavailable or its invocation raises, returns `("none", confidence)` when the
confidence is not strictly above `GESTURE_THRESHOLD`, and produces a label
other than `"none"` only from a successful prediction whose confidence is
strictly above the threshold.  The function is total, so classification
failure never propagates as an exception. -/
theorem classify_gesture_degrades_safely
    (classifier : Option (List ℚ → Except Unit (Nat × ℚ)))
    (landmarks : List ℚ) :
    (classifier = none → classify_gesture classifier landmarks = ("none", 0)) ∧
    (∀ predictor e, classifier = some predictor →
      predictor landmarks = .error e →
      classify_gesture classifier landmarks = ("none", 0)) ∧
    (∀ predictor k c, classifier = some predictor →
      predictor landmarks = .ok (k, c) → c ≤ GESTURE_THRESHOLD →
      classify_gesture classifier landmarks = ("none", c)) ∧
    (∀ lbl c, classify_gesture classifier landmarks = (lbl, c) →
      lbl ≠ "none" →
      ∃ predictor k, classifier = some predictor ∧
        predictor landmarks = .ok (k, c) ∧ GESTURE_THRESHOLD < c) := by
  refine ⟨?_, ?_, ?_, ?_⟩
  · intro h
    simp [classify_gesture, h]
  · intro predictor e hcl hp
    simp [classify_gesture, hcl, hp]
  · intro predictor k c hcl hp hth
    simp [classify_gesture, hcl, hp, not_lt.mpr hth]
  · intro lbl c hres hne
    cases hcl : classifier with
    | none => simp [classify_gesture, hcl] at hres; exact absurd hres.1.symm hne
    | some predictor =>
        cases hp : predictor landmarks with
        | error e =>
            simp [classify_gesture, hcl, hp] at hres
            exact absurd hres.1.symm hne
        | ok pc =>
            obtain ⟨k, conf⟩ := pc
            by_cases hth : GESTURE_THRESHOLD < conf
            · simp only [classify_gesture, hcl, hp, if_pos hth,
                Prod.mk.injEq] at hres
              exact ⟨predictor, k, rfl, by rw [hp, hres.2], hres.2 ▸ hth⟩
            · simp [classify_gesture, hcl, hp, hth] at hres
              exact absurd hres.1.symm hne

/-- Witness for C5 on concrete inputs: a missing classifier, a raising
classifier, and a below-threshold prediction all degrade to `"none"`. -/
theorem classify_gesture_degrades_safely_witness :
    classify_gesture none [] = ("none", 0) ∧
    classify_gesture (some fun _ => .error ()) [] = ("none", 0) ∧
    classify_gesture (some fun _ => .ok (0, 1/2)) [] = ("none", 1/2) :=
  ⟨(classify_gesture_degrades_safely none []).1 rfl,
   (classify_gesture_degrades_safely (some fun _ => .error ()) []).2.1
     _ () rfl rfl,
   (classify_gesture_degrades_safely (some fun _ => .ok (0, 1/2)) []).2.2.1
     _ 0 (1/2) rfl rfl (by norm_num [GESTURE_THRESHOLD])⟩

/-- The contract of a fitted sklearn classifier (external collaborator,
spec §6): `predict` / `predict_proba` raise a `ValueError` when the feature
vector's length differs from the fitted feature count, and otherwise return
the core model's answer. -/
def sklearnPredict (nFeatures : Nat) (core : List ℚ → Nat × ℚ)
    (features : List ℚ) : Except Unit (Nat × ℚ) :=
  if features.length = nFeatures then .ok (core features) else .error ()

/-- Counterexample to C7: a 10-element feature vector (≠ 3 × 21 = 63 expected
scalars) makes the underlying classifier raise, but the bare `except:` in
`classify_gesture` swallows it and the call returns `("none", 0.0)` — it
silently degrades instead of failing loudly. -/
theorem wrong_length_silent_cex :
    (10 : Nat) ≠ 3 * 21 ∧
    classify_gesture (some (sklearnPredict (3 * 21) (fun _ => (0, 9/10))))
      (List.replicate 10 0) = ("none", 0) :=
  ⟨by decide, rfl⟩

/-- C7 (amended): for every feature vector whose length differs from the
expected 3 × 21 scalar count, the classifier's error is caught by the bare
`except:` and `classify_gesture` returns `("none", 0.0)` — silent degradation,
not a loud failure. -/
theorem classify_wrong_length_degrades (core : List ℚ → Nat × ℚ)
    (features : List ℚ) (h : features.length ≠ 3 * 21) :
    classify_gesture (some (sklearnPredict (3 * 21) core)) features
      = ("none", 0) := by
  simp [classify_gesture, sklearnPredict, if_neg h]

/-- Witness for the amended C7 on a concrete 10-element vector. -/
theorem classify_wrong_length_degrades_witness :
    classify_gesture (some (sklearnPredict (3 * 21) (fun _ => (0, 9/10))))
      (List.replicate 10 0) = ("none", 0) :=
  classify_wrong_length_degrades (fun _ => (0, 9/10)) (List.replicate 10 0)
    (by decide)

/-- Counterexample to C8: a classifier predicting class index 6 with
confidence 9/10 (above the 8/10 threshold) makes `classify_gesture` return
the label `"unknown"` — `gesture_labels.get(prediction, "unknown")` — which is
neither in the fixed gesture vocabulary nor the sentinel `"none"`. -/
theorem classify_unknown_label_cex :
    classify_gesture (some fun _ => .ok (6, 9/10)) [] = ("unknown", 9/10) ∧
    "unknown" ∉ ["fist", "palm", "thumbs_up", "peace", "ok", "point", "none"] := by
  constructor
  · have : GESTURE_THRESHOLD < (9/10 : ℚ) := by norm_num [GESTURE_THRESHOLD]
    simp [classify_gesture, if_pos this, dictGet]
  · decide

/-- C8 (amended): every label produced by `classify_gesture` lies in the fixed
gesture vocabulary extended by the sentinel `"none"` and the fallback
`"unknown"` (the latter arising when an above-threshold prediction index is
outside 0–5). -/
theorem classify_label_extended_vocab
    (classifier : Option (List ℚ → Except Unit (Nat × ℚ)))
    (landmarks : List ℚ) :
    (classify_gesture classifier landmarks).1 ∈
      ["fist", "palm", "thumbs_up", "peace", "ok", "point", "none", "unknown"] := by
  cases hcl : classifier with
  | none => simp [classify_gesture]
  | some predictor =>
      cases hp : predictor landmarks with
      | error e => simp [classify_gesture, hp]
      | ok pc =>
          obtain ⟨k, conf⟩ := pc
          by_cases hth : GESTURE_THRESHOLD < conf
          · simp only [classify_gesture, hp, if_pos hth]
            cases hd : dictGet gesture_labels k with
            | none => simp
            | some v =>
                have hv := dictGet_mem_values gesture_labels k v hd
                simp only [gesture_labels, List.map] at hv
                simp only [Option.getD_some]
                fin_cases hv <;> simp
          · simp [classify_gesture, hp, hth]

/-! ## Majority vote in `smooth_gesture`

`smooth_gesture` returns `max(set(self.gesture_buffer),
key=self.gesture_buffer.count)` once the window holds at least 3 entries.
Python's `max` keeps the first element attaining the maximum key, and
iteration over `set(...)` of strings follows an unspecified, hash-dependent
order; that order is therefore a parameter of the embedding (`SetOrder`
states what makes an enumeration admissible). -/

/-- An admissible enumeration of Python's `set(buf)`: duplicate-free and with
exactly the members of `buf`. -/
def SetOrder (order buf : List String) : Prop :=
  order.Nodup ∧ (∀ x ∈ order, x ∈ buf) ∧ (∀ x ∈ buf, x ∈ order)

instance (order buf : List String) : Decidable (SetOrder order buf) := by
  unfold SetOrder
  infer_instance

/-- Python `max(iter, key=buf.count)`: first element of the enumeration with
the greatest count, replacing the running best only on a strictly greater
count. -/
def maxByCount (buf : List String) : List String → Option String
  | [] => none
  | x :: xs =>
      some (xs.foldl (fun best y => if buf.count best < buf.count y then y else best) x)

/-- `GestureRecognizer.smooth_gesture`: push the label, then return the
most-common element of the window once it holds at least 3 entries, else the
raw label.  Returns the stabilized label together with the updated window. -/
def smooth_gesture (order : List String) (buf : List String) (g : String) :
    String × List String :=
  let b := pushBuffer GESTURE_SMOOTHING buf g
  if 3 ≤ b.length then ((maxByCount b order).getD g, b) else (g, b)

theorem foldl_count_stays (buf : List String) (m : String) (xs : List String)
    (h : ∀ y ∈ xs, buf.count y ≤ buf.count m) :
    xs.foldl (fun best y => if buf.count best < buf.count y then y else best) m
      = m := by
  induction xs with
  | nil => rfl
  | cons y ys ih =>
      have hy : ¬ buf.count m < buf.count y :=
        not_lt.mpr (h y (List.mem_cons_self y ys))
      simp only [List.foldl_cons, if_neg hy]
      exact ih fun z hz => h z (List.mem_cons_of_mem y hz)

theorem foldl_count_reaches (buf : List String) (m : String) :
    ∀ (xs : List String) (x : String),
      (x = m ∨ buf.count x < buf.count m) →
      (∀ y ∈ xs, y = m ∨ buf.count y < buf.count m) →
      (x = m ∨ m ∈ xs) →
      xs.foldl (fun best y => if buf.count best < buf.count y then y else best) x
        = m := by
  intro xs
  induction xs with
  | nil =>
      intro x _ _ hmem
      rcases hmem with h | h
      · simpa using h
      · cases h
  | cons y ys ih =>
      intro x hx hall hmem
      have hy := hall y (List.mem_cons_self y ys)
      have hys : ∀ z ∈ ys, z = m ∨ buf.count z < buf.count m :=
        fun z hz => hall z (List.mem_cons_of_mem y hz)
      have hstep :
          (if buf.count x < buf.count y then y else x) = m ∨
          (buf.count (if buf.count x < buf.count y then y else x) < buf.count m ∧
            m ∈ ys) := by
        rcases hx with rfl | hxlt
        · rcases hy with rfl | hylt
          · left; split <;> rfl
          · left; rw [if_neg (not_lt.mpr (le_of_lt hylt))]
        · rcases hy with rfl | hylt
          · left; rw [if_pos hxlt]
          · right
            have hm : m ∈ ys := by
              rcases hmem with rfl | hmem
              · exact absurd rfl (ne_of_lt hxlt).symm.elim
              · rcases List.mem_cons.mp hmem with rfl | h
                · exact absurd rfl (ne_of_lt hylt).symm.elim
                · exact h
            constructor
            · split
              · exact hylt
              · exact hxlt
            · exact hm
      simp only [List.foldl_cons]
      rcases hstep with hbest | ⟨hlt, hm⟩
      · rw [hbest]
        exact foldl_count_stays buf m ys fun z hz =>
          (hys z hz).elim (fun h => h ▸ le_refl _) le_of_lt
      · exact ih _ (Or.inr hlt) hys (Or.inr hm)

theorem maxByCount_unique_max (buf order : List String) (m : String)
    (hord : SetOrder order buf) (hm : m ∈ buf)
    (hmax : ∀ x ∈ buf, x ≠ m → buf.count x < buf.count m) :
    maxByCount buf order = some m := by
  have hmo : m ∈ order := hord.2.2 m hm
  cases order with
  | nil => cases hmo
  | cons x xs =>
      have hcond : ∀ y ∈ x :: xs, y = m ∨ buf.count y < buf.count m := by
        intro y hy
        by_cases hym : y = m
        · exact Or.inl hym
        · exact Or.inr (hmax y (hord.2.1 y hy) hym)
      simp only [maxByCount, Option.some.injEq]
      exact foldl_count_reaches buf m xs x
        (hcond x (List.mem_cons_self x xs))
        (fun y hy => hcond y (List.mem_cons_of_mem x hy))
        ((List.mem_cons.mp hmo).imp Eq.symm id)

/-- C4 (amended): `smooth_gesture` returns the raw pushed label unchanged
while the window (after appending) holds fewer than 3 entries; with at least
3 entries it returns the window's unique most-frequent label whenever that
maximum is unique, for every admissible enumeration of the window's label
set — ties, however, are resolved by the unspecified set-enumeration order,
not by recency. -/
theorem smooth_gesture_spec (buf : List String) (g : String)
    (order : List String)
    (hord : SetOrder order (pushBuffer GESTURE_SMOOTHING buf g)) :
    ((pushBuffer GESTURE_SMOOTHING buf g).length < 3 →
      (smooth_gesture order buf g).1 = g) ∧
    (∀ m, 3 ≤ (pushBuffer GESTURE_SMOOTHING buf g).length →
      m ∈ pushBuffer GESTURE_SMOOTHING buf g →
      (∀ x ∈ pushBuffer GESTURE_SMOOTHING buf g, x ≠ m →
        (pushBuffer GESTURE_SMOOTHING buf g).count x <
          (pushBuffer GESTURE_SMOOTHING buf g).count m) →
      (smooth_gesture order buf g).1 = m) := by
  constructor
  · intro hlen
    simp [smooth_gesture, if_neg (not_le.mpr hlen)]
  · intro m hlen hm hmax
    have := maxByCount_unique_max (pushBuffer GESTURE_SMOOTHING buf g) order
      m hord hm hmax
    simp [smooth_gesture, if_pos hlen, this]

/-- Witness for the amended C4: pushing the spec's example sequence
`[fist, palm, fist, fist, palm]` — the final push lands on the window
`[fist, palm, fist, fist, palm]` where `fist` has the unique maximal count
3 — stabilizes to `fist` under an explicit admissible set enumeration, and
the second push of the sequence still has a too-short window and returns its
raw label. -/
theorem smooth_gesture_spec_witness :
    (smooth_gesture ["fist", "palm"] ["fist", "palm", "fist", "fist"] "palm").1
      = "fist" ∧
    (smooth_gesture ["fist", "palm"] ["fist"] "palm").1 = "palm" :=
  ⟨(smooth_gesture_spec ["fist", "palm", "fist", "fist"] "palm" ["fist", "palm"]
      (by decide)).2 "fist" (by decide) (by decide) (by decide),
   (smooth_gesture_spec ["fist"] "palm" ["fist", "palm"] (by decide)).1
      (by decide)⟩

/-- The tie-break rule asserted by the claim, written from its words: the
most-recently-seen label among those attaining the maximal occurrence count
in the window. -/
def lastSeenAmongTied (b : List String) : Option String :=
  b.reverse.find? (fun x => b.count x == (b.map (fun y => b.count y)).foldl max 0)

/-- Counterexample to C4: on the window `[fist, palm, fist, palm]` (a 2–2
tie), the claim's tie-break picks the most-recently-seen tied label `palm`,
but under the admissible set enumeration `[fist, palm]` the code returns
`fist`. -/
theorem smooth_tie_not_recency_cex :
    SetOrder ["fist", "palm"]
      (pushBuffer GESTURE_SMOOTHING ["fist", "palm", "fist"] "palm") ∧
    lastSeenAmongTied (pushBuffer GESTURE_SMOOTHING ["fist", "palm", "fist"] "palm")
      = some "palm" ∧
    (smooth_gesture ["fist", "palm"] ["fist", "palm", "fist"] "palm").1 = "fist" ∧
    "fist" ≠ "palm" := by
  refine ⟨by decide, by decide, by decide, by decide⟩

/-! ## Voice phrase mapper (`VoiceCommandHandler.process_command`)

`process_command` iterates `self.voice_commands.items()` in insertion order
and returns the first token whose phrase key is a substring (Python `in`) of
the spoken text.  The lower-casing happens in `listen_for_command`, on the
recognized text, before `process_command` is called. -/

/-- Whether the first list is an initial run of the second
(character-by-character comparison). -/
def strStarts : List Char → List Char → Bool
  | [], _ => true
  | _ :: _, [] => false
  | a :: as, b :: bs => a == b && strStarts as bs

/-- Whether the first list occurs contiguously inside the second. -/
def strHas (needle : List Char) : List Char → Bool
  | [] => needle.isEmpty
  | b :: bs => strStarts needle (b :: bs) || strHas needle bs

/-- Python `needle in hay` on strings: contiguous-substring containment. -/
def pyIn (needle hay : String) : Bool := strHas needle.data hay.data

/-- Python `str.lower()` restricted to ASCII text. -/
def pyLower (s : String) : String := ⟨s.data.map Char.toLower⟩

/-- `self.voice_commands` from `VoiceCommandHandler.__init__`, in insertion
order. -/
def voice_commands : List (String × String) :=
  [("open browser", "open_browser"), ("close browser", "close_browser"),
   ("volume up", "volume_up"), ("volume down", "volume_down"),
   ("mute", "mute_audio"), ("unmute", "unmute_audio"),
   ("take screenshot", "screenshot"), ("open calculator", "open_calculator"),
   ("open notepad", "open_notepad"), ("minimize window", "minimize_window"),
   ("maximize window", "maximize_window"), ("switch window", "alt_tab"),
   ("scroll up", "scroll_up"), ("scroll down", "scroll_down"),
   ("zoom in", "zoom_in"), ("zoom out", "zoom_out"),
   ("hello system", "greeting"), ("goodbye system", "goodbye")]

/-- `VoiceCommandHandler.process_command`: first phrase key contained in the
spoken text wins, in mapping insertion order; `None` when no key matches. -/
def process_command (cmds : List (String × String)) (spoken_text : String) :
    Option String :=
  match cmds with
  | [] => none
  | (phrase, command) :: rest =>
      if pyIn phrase spoken_text then some command
      else process_command rest spoken_text

/-- The resolve operation as the claim describes it: lower-case the phrase
first, then do the first-match substring scan.  Written from the claim's
words, for comparison with `process_command`. -/
def resolveAsSpecified (cmds : List (String × String)) (text : String) :
    Option String :=
  process_command cmds (pyLower text)

/-- Counterexample to C6: `process_command` does not lower-case its input —
on the upper-case phrase `"PLEASE OPEN BROWSER NOW"` it returns `none`, while
the claim's lower-casing resolve returns `some "open_browser"`. -/
theorem process_command_no_lowercase_cex :
    process_command [("open browser", "open_browser")]
      "PLEASE OPEN BROWSER NOW" = none ∧
    resolveAsSpecified [("open browser", "open_browser")]
      "PLEASE OPEN BROWSER NOW" = some "open_browser" := by
  constructor
  · decide
  · decide

/-- C6 (amended): `process_command` scans the configured (phrase-key, token)
pairs in mapping insertion order and returns the token of the first pair
whose key is a substring of the phrase exactly as given (lower-casing is done
by the caller on the recognized speech), and returns `none` exactly when no
configured key is a substring; in particular the claim's two lower-case
examples hold. -/
theorem process_command_first_match (cmds : List (String × String))
    (text : String) :
    process_command cmds text
      = (cmds.find? (fun pr => pyIn pr.1 text)).map Prod.snd ∧
    (process_command cmds text = none ↔
      ∀ pr ∈ cmds, pyIn pr.1 text = false) ∧
    process_command [("open browser", "open_browser")] "please open browser now"
      = some "open_browser" ∧
    process_command [("open browser", "open_browser")] "unknown request"
      = none := by
  refine ⟨?_, ?_, by decide, by decide⟩
  · induction cmds with
    | nil => rfl
    | cons p rest ih =>
        obtain ⟨phrase, command⟩ := p
        by_cases h : pyIn phrase text
        · simp [process_command, h, List.find?]
        · simp only [process_command, if_neg h, ih, List.find?]
          rw [Bool.of_not_eq_true h]
  · induction cmds with
    | nil => simp [process_command]
    | cons p rest ih =>
        obtain ⟨phrase, command⟩ := p
        by_cases h : pyIn phrase text
        · simp [process_command, h]
        · simp only [process_command, if_neg h, ih]
          constructor
          · intro hall pr hpr
            rcases List.mem_cons.mp hpr with rfl | hmem
            · exact Bool.of_not_eq_true h
            · exact hall pr hmem
          · intro hall pr hpr
            exact hall pr (List.mem_cons_of_mem _ hpr)

end GestureVoice
